import Mathlib

/-!
Verification of the Bitget futures extraction pipeline
(FastAPI local extractor, lambda worker/collector, Bitget client paginator).

The Python records are JSON objects whose values, on every path the pipeline
touches, are strings (ids, timestamps, the stamped `symbol` tag).  We embed a
record as an association list `String × String`; `rget` is `dict.get` (first
binding wins), `rset` is `dict.__setitem__` (replace in place, else append,
matching Python's key-order preservation).
-/

/-- A record (order or fill): a JSON object with string fields. -/
abbrev Rec : Type := List (String × String)

/-- `order.get(k)`: the value of the first binding of `k`, if any. -/
def rget (r : Rec) (k : String) : Option String :=
  (r.find? (fun p => p.1 = k)).map (·.2)

/-- `order[k] = v`: replace the binding of `k` in place, else append it. -/
def rset (r : Rec) (k : String) (v : String) : Rec :=
  if r.any (fun p => p.1 = k) then
    r.map (fun p => if p.1 = k then (k, v) else p)
  else r ++ [(k, v)]

/-- Python truthiness on an optional string field: `None` and `""` are falsy,
so `order.get(k) or ...` skips them. -/
def getTruthy (r : Rec) (k : String) : Option String :=
  match rget r k with
  | some s => if s = "" then none else some s
  | none => none

/-- `order.get(k1) or order.get(k2) or ...`, stopping at the first truthy
field (the last alternative of such a Python chain is handled by callers). -/
def firstTruthy (r : Rec) : List String → Option String
  | [] => none
  | k :: ks =>
    match getTruthy r k with
    | some v => some v
    | none => firstTruthy r ks

/-- One decimal digit's value, if the character is a digit. -/
def digitVal? (c : Char) : Option Nat :=
  if c.isDigit then some (c.toNat - Char.toNat '0') else none

/-- Decimal digits folded into a value; `none` on any non-digit. -/
def digitsValAux? : List Char → Nat → Option Nat
  | [], acc => some acc
  | c :: cs, acc =>
    match digitVal? c with
    | some d => digitsValAux? cs (acc * 10 + d)
    | none => none

/-- Python's `int(str)` on the strings this pipeline meets: an optional sign
followed by decimal digits; `none` models the raised `ValueError`. -/
def pyInt? (s : String) : Option Int :=
  match s.data with
  | [] => none
  | '-' :: cs =>
    if cs.isEmpty then none
    else (digitsValAux? cs 0).map (fun n => -(n : Int))
  | cs => (digitsValAux? cs 0).map (fun n => (n : Int))

/-- `int(order.get(k1) or ... or 0)`: first truthy field of the chain parsed
as an integer (`none` models the `ValueError` Python's `int` raises on a
non-numeric string); an all-falsy chain yields `int(0) = 0`. -/
def pyIntOfChain (r : Rec) (ks : List String) : Option Int :=
  match firstTruthy r ks with
  | some s => pyInt? s
  | none => some 0

/-!
### The dedup loop

The FastAPI extractor, the worker and the collector deduplicate with the same
`seen`-set loop, differing only in the key; `pyDedupAux` is the loop with its
`seen` accumulator, `keepFirstBy` the structural first-wins policy we prove it
equal to.
-/

/-- The Python dedup loop: walk the list, keep a record iff its key is not in
`seen`, adding kept keys to `seen`. -/
def pyDedupAux {K : Type} [DecidableEq K] (key : Rec → K) :
    List Rec → List K → List Rec
  | [], _ => []
  | r :: rs, seen =>
    if key r ∈ seen then pyDedupAux key rs seen
    else r :: pyDedupAux key rs (key r :: seen)

/-- The dedup loop started with an empty `seen` set. -/
def pyDedup {K : Type} [DecidableEq K] (key : Rec → K) (l : List Rec) : List Rec :=
  pyDedupAux key l []

/-- Structural first-wins dedup: keep the head, drop every later record with
the same key, recurse. -/
def keepFirstBy {K : Type} [DecidableEq K] (key : Rec → K) : List Rec → List Rec
  | [] => []
  | x :: xs => x :: keepFirstBy key (xs.filter (fun y => decide (key y ≠ key x)))
  termination_by l => l.length
  decreasing_by
    simp only [List.length_cons]
    exact Nat.lt_succ_of_le (List.length_filter_le _ _)

theorem keepFirstBy_nil {K : Type} [DecidableEq K] (key : Rec → K) :
    keepFirstBy key [] = [] := by
  simp [keepFirstBy]

theorem keepFirstBy_cons {K : Type} [DecidableEq K] (key : Rec → K) (x : Rec) (xs : List Rec) :
    keepFirstBy key (x :: xs) =
      x :: keepFirstBy key (xs.filter (fun y => decide (key y ≠ key x))) := by
  rw [keepFirstBy]

/-- The `seen`-set loop equals first-wins dedup of the records whose key is
not yet seen. -/
theorem pyDedupAux_eq_keepFirstBy {K : Type} [DecidableEq K] (key : Rec → K)
    (l : List Rec) (seen : List K) :
    pyDedupAux key l seen =
      keepFirstBy key (l.filter (fun x => decide (key x ∉ seen))) := by
  induction l generalizing seen with
  | nil => simp [pyDedupAux, keepFirstBy_nil]
  | cons x xs ih =>
    by_cases hx : key x ∈ seen
    · rw [pyDedupAux, if_pos hx, List.filter_cons_of_neg (by simp [hx])]
      exact ih seen
    · rw [pyDedupAux, if_neg hx, List.filter_cons_of_pos (by simp [hx]),
        keepFirstBy_cons, ih (key x :: seen)]
      congr 1
      rw [List.filter_filter]
      refine congrArg (keepFirstBy key) ?_
      apply List.filter_congr
      intro y _
      by_cases h1 : key y = key x
      · simp [h1, hx]
      · by_cases h2 : key y ∈ seen <;> simp [h1, h2]

/-- The Python dedup loop is exactly stable first-wins dedup. -/
theorem pyDedup_eq_keepFirstBy {K : Type} [DecidableEq K] (key : Rec → K)
    (l : List Rec) : pyDedup key l = keepFirstBy key l := by
  rw [pyDedup, pyDedupAux_eq_keepFirstBy]
  congr 1
  simp

theorem mem_of_mem_keepFirstBy {K : Type} [DecidableEq K] (key : Rec → K)
    (l : List Rec) (r : Rec) : r ∈ keepFirstBy key l → r ∈ l := by
  induction l using keepFirstBy.induct key with
  | case1 =>
    intro h
    simp [keepFirstBy_nil] at h
  | case2 x xs ih =>
    intro h
    rw [keepFirstBy_cons, List.mem_cons] at h
    rcases h with rfl | h
    · exact List.mem_cons_self ..
    · exact List.mem_cons_of_mem _ (List.mem_of_mem_filter (ih h))

/-- First-wins dedup output has pairwise distinct keys. -/
theorem pairwise_keepFirstBy {K : Type} [DecidableEq K] (key : Rec → K)
    (l : List Rec) :
    (keepFirstBy key l).Pairwise (fun a b => key a ≠ key b) := by
  induction l using keepFirstBy.induct key with
  | case1 => simp [keepFirstBy_nil]
  | case2 x xs ih =>
    rw [keepFirstBy_cons]
    refine List.Pairwise.cons ?_ ih
    intro b hb
    have hbf := mem_of_mem_keepFirstBy _ _ _ hb
    have := List.of_mem_filter hbf
    simp only [decide_eq_true_eq] at this
    exact fun hk => this hk.symm

/-- A list whose keys are already pairwise distinct is left unchanged. -/
theorem keepFirstBy_of_pairwise {K : Type} [DecidableEq K] (key : Rec → K)
    (l : List Rec) (h : l.Pairwise (fun a b => key a ≠ key b)) :
    keepFirstBy key l = l := by
  induction l with
  | nil => exact keepFirstBy_nil key
  | cons x xs ih =>
    rw [keepFirstBy_cons]
    have hx : ∀ y ∈ xs, key y ≠ key x :=
      fun y hy => fun he => (List.rel_of_pairwise_cons h hy) he.symm
    have hf : xs.filter (fun y => decide (key y ≠ key x)) = xs := by
      apply List.filter_eq_self.mpr
      intro y hy
      simpa using hx y hy
    rw [hf, ih (List.Pairwise.of_cons h)]

/-- First-wins dedup is idempotent. -/
theorem keepFirstBy_idem {K : Type} [DecidableEq K] (key : Rec → K)
    (l : List Rec) : keepFirstBy key (keepFirstBy key l) = keepFirstBy key l :=
  keepFirstBy_of_pairwise key _ (pairwise_keepFirstBy key l)

/-!
### The sort step

`list.sort(key=..., reverse=True)` is the unique stable descending sort; we
embed it as stable insertion sort by the integer key (an earlier record stays
before a later one with the same key).
-/

/-- Insert `a` into a descending list, before the first element whose key does
not exceed `key a` (so earlier list elements with equal key stay in front). -/
def orderedInsertDesc (key : Rec → Int) (a : Rec) : List Rec → List Rec
  | [] => [a]
  | b :: l => if key b ≤ key a then a :: b :: l else b :: orderedInsertDesc key a l

/-- Stable descending insertion sort by an integer key: the model of
`list.sort(key=..., reverse=True)`. -/
def pySortDesc (key : Rec → Int) : List Rec → List Rec
  | [] => []
  | x :: xs => orderedInsertDesc key x (pySortDesc key xs)

theorem perm_orderedInsertDesc (key : Rec → Int) (a : Rec) (l : List Rec) :
    List.Perm (orderedInsertDesc key a l) (a :: l) := by
  induction l with
  | nil => rfl
  | cons b t ih =>
    rw [orderedInsertDesc]
    by_cases h : key b ≤ key a
    · rw [if_pos h]
    · rw [if_neg h]
      exact (ih.cons b).trans (List.Perm.swap a b t)

/-- The sort step permutes its input. -/
theorem perm_pySortDesc (key : Rec → Int) (l : List Rec) :
    List.Perm (pySortDesc key l) l := by
  induction l with
  | nil => rfl
  | cons x xs ih =>
    rw [pySortDesc]
    exact (perm_orderedInsertDesc key x (pySortDesc key xs)).trans (ih.cons x)

theorem pairwise_orderedInsertDesc (key : Rec → Int) (a : Rec) (l : List Rec)
    (h : l.Pairwise (fun x y => key y ≤ key x)) :
    (orderedInsertDesc key a l).Pairwise (fun x y => key y ≤ key x) := by
  induction l with
  | nil => simp [orderedInsertDesc]
  | cons b t ih =>
    rw [orderedInsertDesc]
    by_cases hb : key b ≤ key a
    · rw [if_pos hb]
      refine List.Pairwise.cons ?_ h
      intro y hy
      rcases List.mem_cons.mp hy with rfl | hy'
      · exact hb
      · exact le_trans (List.rel_of_pairwise_cons h hy') hb
    · rw [if_neg hb]
      refine List.Pairwise.cons ?_ (ih (List.Pairwise.of_cons h))
      intro y hy
      have hmem := (perm_orderedInsertDesc key a t).mem_iff.mp hy
      rcases List.mem_cons.mp hmem with rfl | hy'
      · exact le_of_lt (lt_of_not_le hb)
      · exact List.rel_of_pairwise_cons h hy'

/-- The sort step output is descending in the key, pairwise (hence also on
every adjacent pair). -/
theorem pairwise_pySortDesc (key : Rec → Int) (l : List Rec) :
    (pySortDesc key l).Pairwise (fun x y => key y ≤ key x) := by
  induction l with
  | nil => simp [pySortDesc]
  | cons x xs ih =>
    rw [pySortDesc]
    exact pairwise_orderedInsertDesc key x _ ih

theorem filter_orderedInsertDesc (key : Rec → Int) (c : Int) (a : Rec)
    (l : List Rec) :
    (orderedInsertDesc key a l).filter (fun x => decide (key x = c)) =
      (a :: l).filter (fun x => decide (key x = c)) := by
  induction l with
  | nil => rfl
  | cons b t ih =>
    rw [orderedInsertDesc]
    by_cases hb : key b ≤ key a
    · rw [if_pos hb]
    · rw [if_neg hb]
      by_cases hbc : key b = c
      · have hac : key a ≠ c := by
          intro hac
          exact hb (le_of_eq (hbc.trans hac.symm))
        simp only [List.filter_cons, ih]
        simp [hac, hbc]
      · simp only [List.filter_cons, ih]
        by_cases hac : key a = c <;> simp [hac, hbc]

/-- Stability of the sort step: records with any fixed key value keep their
original relative order. -/
theorem filter_pySortDesc (key : Rec → Int) (c : Int) (l : List Rec) :
    (pySortDesc key l).filter (fun x => decide (key x = c)) =
      l.filter (fun x => decide (key x = c)) := by
  induction l with
  | nil => rfl
  | cons x xs ih =>
    rw [pySortDesc, filter_orderedInsertDesc]
    simp only [List.filter_cons]
    by_cases hx : key x = c <;> simp [hx, ih]

/-- `list.sort(key=...)` first computes every element's key (raising if any
key expression raises), then sorts: `none` models the raised `ValueError`. -/
def pySortByKey? (key? : Rec → Option Int) (l : List Rec) : Option (List Rec) :=
  if l.all (fun r => (key? r).isSome) then
    some (pySortDesc (fun r => (key? r).getD 0) l)
  else none

/-!
### The signed client (`lambdas/bitget_client.py`)

Each client operation issues one HTTP GET; we embed the interaction's outcome:
`err` is the `except Exception` path (transport failure, timeout, JSON decode
failure), `ok status body` a decoded HTTP response.  `raise_for_status` raises
(into the surrounding `try`) exactly when `400 ≤ status`.
-/

/-- A decoded JSON payload under the envelope's `data` key: either an object
(with the list/flag fields the pipeline reads; an absent list key reads as
`[]`) or a bare array. -/
inductive PyData
  | dict (fillList : List Rec) (orderList : List Rec) (nextFlag : Bool)
  | arr (rs : List Rec)
deriving DecidableEq

/-- The exchange envelope `{code, msg, data}`. -/
structure Envelope where
  code : String
  msg : String
  data : PyData
deriving DecidableEq

/-- Outcome of one `requests.get(...).json()` interaction. -/
inductive HttpResult
  | err (msg : String)
  | ok (status : Nat) (body : Envelope)
deriving DecidableEq

/-- `get_futures_history_orders`: non-2xx raises inside the `try` (via
`raise_for_status`), transport errors raise too; both are caught and turned
into `{"code": "error", "msg": str(e), "data": []}`.  A decoded success
response is returned unmodified, whatever its envelope code. -/
def get_futures_history_orders (h : HttpResult) : Envelope :=
  match h with
  | .err m => ⟨"error", m, .arr []⟩
  | .ok status body =>
    if 400 ≤ status then ⟨"error", "HTTPError " ++ toString status, .arr []⟩
    else body

/-- `get_futures_fills`: like `get_futures_history_orders`, but a decoded
response whose envelope code is not `"00000"` is also rewritten to
`{"code": "error", "msg": ..., "data": {"fillList": []}}`. -/
def get_futures_fills (h : HttpResult) : Envelope :=
  match h with
  | .err m => ⟨"error", m, .dict [] [] false⟩
  | .ok status body =>
    if 400 ≤ status then ⟨"error", "HTTPError " ++ toString status, .dict [] [] false⟩
    else if body.code = "00000" then body
    else ⟨"error", body.msg, .dict [] [] false⟩

/-- `get_futures_symbols`: returns the list of `symbol` fields of the
contracts on success; on an API error code it returns `[]`, and the
`except Exception` path (transport error, `raise_for_status`) also returns
`[]` — a bare list, not an envelope. -/
def get_futures_symbols (h : HttpResult) : List String :=
  match h with
  | .err _ => []
  | .ok status body =>
    if 400 ≤ status then []
    else if body.code = "00000" then
      match body.data with
      | .arr contracts => contracts.filterMap (fun c => getTruthy c "symbol")
      | .dict _ _ _ => []
    else []

/-- `get_futures_history_orders` request building:
`params["limit"] = min(100, max(1, int(limit)))`. -/
def history_orders_limit_param (limit : Int) : Int := min 100 (max 1 limit)

/-- `get_futures_fills` request building:
`params["limit"] = min(100, max(1, int(limit)))`. -/
def fills_limit_param (limit : Int) : Int := min 100 (max 1 limit)

/-!
### The per-symbol paginator (`fetch_all_futures_history_for_symbol`)

The loop body performs exactly one client call per iteration; we script the
client with a list of per-call outcomes (`throws` = the call raised, `ret e` =
it returned envelope `e`).  `none` means the loop ran past the script — i.e.
it was still running after consuming every scripted call; `some (items, n)`
means it returned `items` after exactly `n` client calls.
-/

/-- One scripted client-call outcome. -/
inductive FetchOutcome
  | throws
  | ret (e : Envelope)
deriving DecidableEq

/-- `data.get('fillList'/'orderList', [])` guarded by `isinstance(data, dict)`. -/
def pageItems (useFills : Bool) (d : PyData) : List Rec :=
  match d with
  | .dict fills orders _ => if useFills then fills else orders
  | .arr _ => []

/-- `data.get('nextFlag', False)` guarded by `isinstance(data, dict)`. -/
def pageNextFlag (d : PyData) : Bool :=
  match d with
  | .dict _ _ nf => nf
  | .arr _ => false

/-- The next-page id taken from the last item: `tradeId or fillId` for fills,
`orderId` for orders; `none` when the resulting value is falsy
(`if not end_id: break`). -/
def pageEndId (useFills : Bool) (items : List Rec) : Option String :=
  match items.getLast? with
  | none => none
  | some last =>
    if useFills then
      match getTruthy last "tradeId" with
      | some v => some v
      | none => getTruthy last "fillId"
    else getTruthy last "orderId"

/-- The `while True` pagination loop; `page` is the page counter (also the
number of client calls so far, since each iteration makes exactly one call). -/
def paginateGo (useFills : Bool) (perPage : Nat) (maxPages : Option Nat) :
    List FetchOutcome → Nat → List Rec → Option (List Rec × Nat)
  | [], _, _ => none
  | o :: os, page, acc =>
    let p := page + 1
    match o with
    | .throws => paginateGo useFills perPage maxPages os p acc
    | .ret e =>
      if e.code = "00000" then
        let items := pageItems useFills e.data
        if items.isEmpty then some (acc, p)
        else
          let acc2 := acc ++ items
          if !(pageNextFlag e.data) || items.length < perPage then some (acc2, p)
          else
            match pageEndId useFills items with
            | none => some (acc2, p)
            | some _ =>
              match maxPages with
              | some mp => if mp ≠ 0 ∧ mp ≤ p then some (acc2, p)
                           else paginateGo useFills perPage maxPages os p acc2
              | none => paginateGo useFills perPage maxPages os p acc2
      else some (acc, p)

/-- `fetch_all_futures_history_for_symbol`, scripted: the accumulated items
and the number of client calls made. -/
def fetch_all_futures_history_for_symbol (useFills : Bool) (perPage : Nat)
    (maxPages : Option Nat) (outcomes : List FetchOutcome) :
    Option (List Rec × Nat) :=
  paginateGo useFills perPage maxPages outcomes 0 []

/-!
### Dedup keys, sort keys, and the three pipeline stages
-/

/-- FastAPI `extract_futures_orders_local` dedup key:
`(order.get('symbol'), order.get('orderId'))`. -/
def localKey (r : Rec) : Option String × Option String :=
  (rget r "symbol", rget r "orderId")

/-- Collector id: `order.get('orderId') or order.get('order_id') or
order.get('id')` — the last alternative keeps its raw (possibly falsy)
value. -/
def collectorId (r : Rec) : Option String :=
  match getTruthy r "orderId" with
  | some v => some v
  | none =>
    match getTruthy r "order_id" with
    | some v => some v
    | none => rget r "id"

/-- Collector dedup key: `(symbol, order_id)`. -/
def collectorKey (r : Rec) : Option String × Option String :=
  (rget r "symbol", collectorId r)

/-- Worker id: `order.get('orderId') or order.get('tradeId') or
order.get('fillId') or order.get('id')`. -/
def workerIdField (r : Rec) : Option String :=
  match firstTruthy r ["orderId", "tradeId", "fillId"] with
  | some v => some v
  | none => rget r "id"

/-- Worker timestamp field: `order.get('cTime') or order.get('timestamp')`. -/
def workerTsField (r : Rec) : Option String :=
  match getTruthy r "cTime" with
  | some v => some v
  | none => rget r "timestamp"

/-- Worker dedup key: `(symbol, order_id, timestamp)`. -/
def workerKey (r : Rec) : Option String × Option String × Option String :=
  (rget r "symbol", workerIdField r, workerTsField r)

/-- FastAPI dedup step (lines 120–128 of `fastapi_app/main.py`). -/
def dedupLocal (l : List Rec) : List Rec := pyDedup localKey l

/-- Collector dedup step (lines 75–85 of `lambdas/collector/app.py`). -/
def dedupCollector (l : List Rec) : List Rec := pyDedup collectorKey l

/-- Worker dedup step (lines 122–135 of `lambdas/worker/app.py`). -/
def dedupWorker (l : List Rec) : List Rec := pyDedup workerKey l

/-- FastAPI sort key: `int(x.get('ctime') or x.get('cTime') or 0)`. -/
def tsLocal? (r : Rec) : Option Int := pyIntOfChain r ["ctime", "cTime"]

/-- Collector sort key: `int(order.get('ctime') or order.get('cTime') or
order.get('timestamp') or order.get('createTime') or 0)`. -/
def tsCollector? (r : Rec) : Option Int :=
  pyIntOfChain r ["ctime", "cTime", "timestamp", "createTime"]

/-- FastAPI sort step (line 131 of `fastapi_app/main.py`). -/
def sortLocal? (l : List Rec) : Option (List Rec) := pySortByKey? tsLocal? l

/-- Collector sort step (lines 90–94 of `lambdas/collector/app.py`). -/
def sortCollector? (l : List Rec) : Option (List Rec) :=
  pySortByKey? tsCollector? l

/-!
### Record stamping and the two merge pipelines

The fan-out itself is concurrent; its fan-in order is unspecified, so we take
the per-symbol outcomes as an already-ordered list (one entry per selected
symbol, in the order the results were collected) — every claim below is about
what happens from that point on.
-/

/-- FastAPI `fetch_symbol_futures_orders`: on success, stamp each order with
the symbol (`order['symbol'] = symbol`) and return them; any exception is
caught and yields `[]`. -/
def fetch_symbol_futures_orders (symbol : String)
    (outcome : Except String (List Rec)) : List Rec :=
  match outcome with
  | .error _ => []
  | .ok orders => orders.map (fun o => rset o "symbol" symbol)

/-- The `all_orders` accumulator: every symbol's fetched list appended in
collection order (an empty result contributes nothing either way). -/
def mergeLocal (jobs : List (String × Except String (List Rec))) : List Rec :=
  (jobs.map (fun j => fetch_symbol_futures_orders j.1 j.2)).flatten

/-- The dict returned by `extract_futures_orders_local`, minus the two fields
outside a pure embedding (`duration_seconds`: wall clock; `saved_file`:
filesystem).  Note it has no `failed_symbols` field. -/
structure LocalResult where
  success : Bool
  data : List Rec
  total_orders : Nat
  processed_symbols : Nat
deriving DecidableEq

/-- `extract_futures_orders_local` from the fan-in on: merge, dedup by
`(symbol, orderId)`, sort by `ctime`/`cTime` descending, assemble the result.
`none` models the `ValueError` the unguarded sort raises on a non-numeric
timestamp. -/
def extract_futures_orders_local
    (jobs : List (String × Except String (List Rec))) : Option LocalResult :=
  match sortLocal? (dedupLocal (mergeLocal jobs)) with
  | some data => some ⟨true, data, data.length, jobs.length⟩
  | none => none

/-- Worker stamping (`lambdas/worker/app.py` lines 94–98): each fetched record
gets `symbol`, `worker_id` and `data_type`. -/
def stampWorker (symbol wid : String) (useFills : Bool) (r : Rec) : Rec :=
  rset (rset (rset r "symbol" symbol) "worker_id" wid)
    "data_type" (if useFills then "fill" else "order")

/-- One worker result as the collector reads it (after the optional `body`
unwrap): its `success` flag and its `orders` list. -/
structure WorkerOutput where
  success : Bool
  orders : List Rec
deriving DecidableEq

/-- The dict returned by the collector, minus `duration_seconds`,
`processing_stats`, `execution_timestamp`, `metadata` and `s3_location`
(wall clock / diagnostics / object-store side effects). -/
structure CollectorResult where
  success : Bool
  data : List Rec
  total_orders : Nat
  processed_symbols : Nat
  failed_symbols : Nat
deriving DecidableEq

/-- The collector `lambda_handler`: concatenate the orders of the successful
worker results (`if success and result_data.get('orders')` — an empty list is
falsy, so such a result counts as failed), dedup by `(symbol, order_id)`,
sort descending.  A raised exception (here: the sort's `int()` failing) is
caught and yields the error result with `success = False`. -/
def collectorSucceeded (ws : List WorkerOutput) : List WorkerOutput :=
  ws.filter (fun w => w.success && !w.orders.isEmpty)

def collector_lambda_handler (ws : List WorkerOutput) : CollectorResult :=
  match sortCollector?
      (dedupCollector ((collectorSucceeded ws).map (fun w => w.orders)).flatten) with
  | some data => ⟨true, data, data.length, (collectorSucceeded ws).length,
      ws.length - (collectorSucceeded ws).length⟩
  | none => ⟨false, [], 0, 0, ws.length⟩

/-!
### Spec-side definitions (refinement comparisons only)

These two follow the specification's words, to be compared with the
definitions above that follow the source.
-/

/-- Modelled from the spec: the *logical identity* id component, "whichever of
`orderId` / `tradeId` / `fillId` / `id` is present". -/
def specLogicalId (r : Rec) : Option String :=
  rget r "orderId" <|> rget r "tradeId" <|> rget r "fillId" <|> rget r "id"

/-- Modelled from the spec: logical identity = `(symbol, logical_id)`. -/
def specIdentity (r : Rec) : Option String × Option String :=
  (rget r "symbol", specLogicalId r)

/-- Modelled from the spec: first-wins dedup keyed by the spec's logical
identity. -/
def specDedup (l : List Rec) : List Rec := keepFirstBy specIdentity l

/-- Modelled from the spec: the *logical timestamp*, "the first present field
among `timestamp`, `cTime`/`ctime`, `createTime`, `lastUpdateTime`, defaulting
to 0 if none present". -/
def specTimestamp (r : Rec) : Int :=
  match rget r "timestamp" <|> rget r "cTime" <|> rget r "ctime" <|>
      rget r "createTime" <|> rget r "lastUpdateTime" with
  | some s => (pyInt? s).getD 0
  | none => 0

/-!
### Helper lemmas
-/

/-- Setting one key leaves every other key's value unchanged (map branch). -/
theorem rget_map_set_ne (r : Rec) (k v k' : String) (h : k' ≠ k) :
    rget (r.map (fun p => if p.1 = k then (k, v) else p)) k' = rget r k' := by
  induction r with
  | nil => rfl
  | cons q t ih =>
    by_cases hq : q.1 = k
    · have hq' : ¬ q.1 = k' := by rw [hq]; exact Ne.symm h
      simp only [List.map_cons, if_pos hq, rget] at ih ⊢
      rw [List.find?_cons_of_neg _ (by simp [Ne.symm h]),
        List.find?_cons_of_neg _ (by simp [hq'])]
      exact ih
    · simp only [List.map_cons, if_neg hq, rget] at ih ⊢
      by_cases hq' : q.1 = k'
      · rw [List.find?_cons_of_pos _ (by simp [hq']),
          List.find?_cons_of_pos _ (by simp [hq'])]
      · rw [List.find?_cons_of_neg _ (by simp [hq']),
          List.find?_cons_of_neg _ (by simp [hq'])]
        exact ih

/-- Appending a binding for one key leaves every other key's value unchanged. -/
theorem rget_append_set_ne (r : Rec) (k v k' : String) (h : k' ≠ k) :
    rget (r ++ [(k, v)]) k' = rget r k' := by
  simp only [rget, List.find?_append]
  rw [List.find?_cons_of_neg _ (by simp [Ne.symm h])]
  simp

/-- `order[k] = v` changes no key but `k`. -/
theorem rget_rset_ne (r : Rec) (k v k' : String) (h : k' ≠ k) :
    rget (rset r k v) k' = rget r k' := by
  rw [rset]
  by_cases ha : r.any (fun p => p.1 = k)
  · rw [if_pos ha, rget_map_set_ne r k v k' h]
  · rw [if_neg ha, rget_append_set_ne r k v k' h]

/-- Inverting the sort step: a `some` result is the stable descending sort by
the totalised key, and every key parsed. -/
theorem pySortByKey?_some (key? : Rec → Option Int) (l l' : List Rec)
    (h : pySortByKey? key? l = some l') :
    l' = pySortDesc (fun r => (key? r).getD 0) l ∧
      ∀ r ∈ l, (key? r).isSome := by
  rw [pySortByKey?] at h
  by_cases hc : l.all (fun r => (key? r).isSome)
  · rw [if_pos hc] at h
    exact ⟨(Option.some.inj h).symm, by simpa [List.all_eq_true] using hc⟩
  · rw [if_neg hc] at h
    simp at h

/-!
### Claims
-/

/-- C1 counterexample.  Two records that carry only `tradeId`s — distinct
logical identities per the spec — collide on the implemented keys (`orderId`
is absent in both, so both key to `(symbol, None)`): the second record is
discarded by both the FastAPI and the collector dedup, while the spec's
first-wins dedup keeps both. -/
theorem C1_counterexample :
    dedupLocal [[("symbol", "BTCUSDT"), ("tradeId", "t1")],
        [("symbol", "BTCUSDT"), ("tradeId", "t2")]] =
      [[("symbol", "BTCUSDT"), ("tradeId", "t1")]] ∧
    dedupCollector [[("symbol", "BTCUSDT"), ("tradeId", "t1")],
        [("symbol", "BTCUSDT"), ("tradeId", "t2")]] =
      [[("symbol", "BTCUSDT"), ("tradeId", "t1")]] ∧
    specIdentity [("symbol", "BTCUSDT"), ("tradeId", "t1")] ≠
      specIdentity [("symbol", "BTCUSDT"), ("tradeId", "t2")] ∧
    specDedup [[("symbol", "BTCUSDT"), ("tradeId", "t1")],
        [("symbol", "BTCUSDT"), ("tradeId", "t2")]] =
      [[("symbol", "BTCUSDT"), ("tradeId", "t1")],
        [("symbol", "BTCUSDT"), ("tradeId", "t2")]] := by
  refine ⟨by decide, by decide, by decide, ?_⟩
  rw [specDedup, ← pyDedup_eq_keepFirstBy]
  decide

/-- C1 (amended): each dedup step is the stable first-wins policy — iterate in
encounter order, keep the first record per key, discard every later record
with the same key — but keyed by `(symbol, orderId)` in the FastAPI extractor,
`(symbol, orderId or order_id or id)` in the collector, and
`(symbol, orderId or tradeId or fillId or id, cTime or timestamp)` in the
worker; the spec's `orderId`/`tradeId`/`fillId`/`id` chain matches none of the
two cited sites. -/
theorem C1_dedup_first_wins (l : List Rec) :
    dedupLocal l = keepFirstBy localKey l ∧
    dedupCollector l = keepFirstBy collectorKey l ∧
    dedupWorker l = keepFirstBy workerKey l :=
  ⟨pyDedup_eq_keepFirstBy localKey l, pyDedup_eq_keepFirstBy collectorKey l,
    pyDedup_eq_keepFirstBy workerKey l⟩

/-- C9: the dedup step is idempotent, for each of the three dedup variants. -/
theorem C9_dedup_idempotent (l : List Rec) :
    dedupLocal (dedupLocal l) = dedupLocal l ∧
    dedupCollector (dedupCollector l) = dedupCollector l ∧
    dedupWorker (dedupWorker l) = dedupWorker l := by
  refine ⟨?_, ?_, ?_⟩ <;>
    simp only [dedupLocal, dedupCollector, dedupWorker, pyDedup_eq_keepFirstBy,
      keepFirstBy_idem]

/-- C10: both page-fetch operations clamp the requested page size to
`min(100, max(1, limit))`, which always lies in `[1, 100]`. -/
theorem C10_limit_clamped (L : Int) :
    history_orders_limit_param L = min 100 (max 1 L) ∧
    fills_limit_param L = min 100 (max 1 L) ∧
    1 ≤ history_orders_limit_param L ∧ history_orders_limit_param L ≤ 100 ∧
    1 ≤ fills_limit_param L ∧ fills_limit_param L ≤ 100 := by
  unfold history_orders_limit_param fills_limit_param
  refine ⟨rfl, rfl, ?_, ?_, ?_, ?_⟩ <;> omega

/-- C2 counterexample.  A record with `timestamp = 5` and `ctime = 3` sorts by
`3` in the implemented key (which consults only `ctime`/`cTime`), so it lands
after a record whose spec-timestamp is `4`: the sorted output violates the
claimed adjacent-pair property `specTimestamp(a) ≥ specTimestamp(b)`. -/
theorem C2_counterexample :
    sortLocal? [[("orderId", "1"), ("ctime", "3"), ("timestamp", "5")],
        [("orderId", "2"), ("ctime", "4")]] =
      some [[("orderId", "2"), ("ctime", "4")],
        [("orderId", "1"), ("ctime", "3"), ("timestamp", "5")]] ∧
    ¬ (specTimestamp [("orderId", "1"), ("ctime", "3"), ("timestamp", "5")] ≤
        specTimestamp [("orderId", "2"), ("ctime", "4")]) := by
  constructor
  · decide
  · decide

/-- C2 (amended): the final sort is a stable descending sort, but by the
implemented timestamp key — `int(ctime or cTime or 0)` in the FastAPI
extractor and `int(ctime or cTime or timestamp or createTime or 0)` in the
collector, not the spec's `timestamp`-first chain.  Whenever the sort returns
(no key raised), every adjacent pair of the result is descending in that key,
the result is a permutation of the input, and ties keep their original
encounter order. -/
theorem C2_sort_desc_stable (l l' m m' : List Rec)
    (hl : sortLocal? l = some l') (hm : sortCollector? m = some m') :
    List.Chain' (fun a b => (tsLocal? b).getD 0 ≤ (tsLocal? a).getD 0) l' ∧
    List.Perm l' l ∧
    (∀ c : Int, l'.filter (fun x => decide ((tsLocal? x).getD 0 = c)) =
      l.filter (fun x => decide ((tsLocal? x).getD 0 = c))) ∧
    List.Chain' (fun a b => (tsCollector? b).getD 0 ≤ (tsCollector? a).getD 0) m' ∧
    List.Perm m' m ∧
    (∀ c : Int, m'.filter (fun x => decide ((tsCollector? x).getD 0 = c)) =
      m.filter (fun x => decide ((tsCollector? x).getD 0 = c))) := by
  rw [sortLocal?] at hl
  rw [sortCollector?] at hm
  obtain ⟨rfl, _⟩ := pySortByKey?_some _ _ _ hl
  obtain ⟨rfl, _⟩ := pySortByKey?_some _ _ _ hm
  exact ⟨(pairwise_pySortDesc _ l).chain', perm_pySortDesc _ l,
    fun c => filter_pySortDesc _ c l,
    (pairwise_pySortDesc _ m).chain', perm_pySortDesc _ m,
    fun c => filter_pySortDesc _ c m⟩

/-- C2 witness: the amended sort theorem at a concrete input. -/
theorem C2_sort_desc_stable_witness :
    List.Chain' (fun a b => (tsLocal? b).getD 0 ≤ (tsLocal? a).getD 0)
      [[("ctime", "7")], [("ctime", "3")]] ∧
    List.Perm [[("ctime", "7")], [("ctime", "3")]]
      [[("ctime", "3")], [("ctime", "7")]] ∧
    (∀ c : Int, ([[("ctime", "7")], [("ctime", "3")]] : List Rec).filter
        (fun x => decide ((tsLocal? x).getD 0 = c)) =
      ([[("ctime", "3")], [("ctime", "7")]] : List Rec).filter
        (fun x => decide ((tsLocal? x).getD 0 = c))) ∧
    List.Chain' (fun a b => (tsCollector? b).getD 0 ≤ (tsCollector? a).getD 0)
      ([] : List Rec) ∧
    List.Perm ([] : List Rec) ([] : List Rec) ∧
    (∀ c : Int, ([] : List Rec).filter
        (fun x => decide ((tsCollector? x).getD 0 = c)) =
      ([] : List Rec).filter (fun x => decide ((tsCollector? x).getD 0 = c))) :=
  C2_sort_desc_stable [[("ctime", "3")], [("ctime", "7")]]
    [[("ctime", "7")], [("ctime", "3")]] [] [] (by decide) (by decide)

/-- C3 counterexample.  One symbol returns a record with `orderId = "7"` and a
record with `tradeId = "7"`: their spec logical identities coincide
(`(B, "7")`), yet the extractor keeps both (its key reads only `orderId`), so
the output data holds two records sharing the spec's logical identity. -/
theorem C3_counterexample :
    extract_futures_orders_local
        [("B", Except.ok [[("orderId", "7"), ("ctime", "1")],
          [("tradeId", "7"), ("ctime", "2")]])] =
      some ⟨true,
        [[("tradeId", "7"), ("ctime", "2"), ("symbol", "B")],
          [("orderId", "7"), ("ctime", "1"), ("symbol", "B")]], 2, 1⟩ ∧
    specIdentity [("tradeId", "7"), ("ctime", "2"), ("symbol", "B")] =
      specIdentity [("orderId", "7"), ("ctime", "1"), ("symbol", "B")] ∧
    ([("tradeId", "7"), ("ctime", "2"), ("symbol", "B")] : Rec) ≠
      [("orderId", "7"), ("ctime", "1"), ("symbol", "B")] := by
  refine ⟨by decide, by decide, by decide⟩

/-- C3 (amended): every result of an extraction run satisfies
`total_orders = len(data)`, and its data has pairwise-distinct *implemented*
dedup keys — `(symbol, orderId)` for the FastAPI extractor and
`(symbol, orderId or order_id or id)` for the collector; uniqueness under the
spec's `(symbol, orderId/tradeId/fillId/id)` identity does not hold. -/
theorem C3_result_invariant (jobs : List (String × Except String (List Rec)))
    (res : LocalResult) (h : extract_futures_orders_local jobs = some res)
    (ws : List WorkerOutput) :
    res.total_orders = res.data.length ∧
    res.data.Pairwise (fun a b => localKey a ≠ localKey b) ∧
    (collector_lambda_handler ws).total_orders =
      (collector_lambda_handler ws).data.length ∧
    (collector_lambda_handler ws).data.Pairwise
      (fun a b => collectorKey a ≠ collectorKey b) := by
  have hloc : res.total_orders = res.data.length ∧
      res.data.Pairwise (fun a b => localKey a ≠ localKey b) := by
    unfold extract_futures_orders_local at h
    split at h
    case h_1 data hsort =>
      obtain rfl := Option.some.inj h
      refine ⟨rfl, ?_⟩
      rw [sortLocal?] at hsort
      obtain ⟨rfl, _⟩ := pySortByKey?_some _ _ _ hsort
      refine (List.Perm.pairwise_iff (fun hab he => hab he.symm)
        (perm_pySortDesc _ _)).mpr ?_
      simp only [dedupLocal, pyDedup_eq_keepFirstBy]
      exact pairwise_keepFirstBy localKey _
    case h_2 => simp at h
  have hcol : (collector_lambda_handler ws).total_orders =
      (collector_lambda_handler ws).data.length ∧
      (collector_lambda_handler ws).data.Pairwise
        (fun a b => collectorKey a ≠ collectorKey b) := by
    unfold collector_lambda_handler
    split
    case h_1 data hsort =>
      refine ⟨rfl, ?_⟩
      rw [sortCollector?] at hsort
      obtain ⟨rfl, _⟩ := pySortByKey?_some _ _ _ hsort
      refine (List.Perm.pairwise_iff (fun hab he => hab he.symm)
        (perm_pySortDesc _ _)).mpr ?_
      simp only [dedupCollector, pyDedup_eq_keepFirstBy]
      exact pairwise_keepFirstBy collectorKey _
    case h_2 => exact ⟨rfl, List.Pairwise.nil⟩
  exact ⟨hloc.1, hloc.2, hcol.1, hcol.2⟩

/-- C3 witness: the amended invariant at a concrete run. -/
theorem C3_result_invariant_witness :
    (LocalResult.mk true [[("orderId", "1"), ("ctime", "2"), ("symbol", "B")]]
        1 1).total_orders =
      (LocalResult.mk true [[("orderId", "1"), ("ctime", "2"), ("symbol", "B")]]
        1 1).data.length ∧
    (LocalResult.mk true [[("orderId", "1"), ("ctime", "2"), ("symbol", "B")]]
        1 1).data.Pairwise (fun a b => localKey a ≠ localKey b) ∧
    (collector_lambda_handler [⟨true, [[("orderId", "5"), ("ctime", "3")]]⟩]).total_orders =
      (collector_lambda_handler [⟨true, [[("orderId", "5"), ("ctime", "3")]]⟩]).data.length ∧
    (collector_lambda_handler [⟨true, [[("orderId", "5"), ("ctime", "3")]]⟩]).data.Pairwise
      (fun a b => collectorKey a ≠ collectorKey b) :=
  C3_result_invariant [("B", Except.ok [[("orderId", "1"), ("ctime", "2")]])]
    ⟨true, [[("orderId", "1"), ("ctime", "2"), ("symbol", "B")]], 1, 1⟩
    (by decide) [⟨true, [[("orderId", "5"), ("ctime", "3")]]⟩]

/-- Replacing a failed fetch by a successful zero-record fetch. -/
def errToEmpty (j : String × Except String (List Rec)) :
    String × Except String (List Rec) :=
  (j.1, match j.2 with
    | Except.error _ => Except.ok []
    | Except.ok l => Except.ok l)

/-- C4 counterexample.  Three symbols, the middle one always failing: the run
returns `success = true` with the two surviving symbols' records — but the
result is *identical* to the run where the failing symbol succeeded with zero
records.  The returned dict (translated in full but for the wall-clock and
file-name fields) has no `failed_symbols` entry and no tagged error record:
nothing marks the failure. -/
theorem C4_counterexample :
    extract_futures_orders_local
        [("S1", Except.ok [[("orderId", "1"), ("ctime", "10")]]),
          ("S2", Except.error "boom"),
          ("S3", Except.ok [[("orderId", "3"), ("ctime", "5")]])] =
      some ⟨true, [[("orderId", "1"), ("ctime", "10"), ("symbol", "S1")],
        [("orderId", "3"), ("ctime", "5"), ("symbol", "S3")]], 2, 3⟩ ∧
    extract_futures_orders_local
        [("S1", Except.ok [[("orderId", "1"), ("ctime", "10")]]),
          ("S2", Except.error "boom"),
          ("S3", Except.ok [[("orderId", "3"), ("ctime", "5")]])] =
      extract_futures_orders_local
        [("S1", Except.ok [[("orderId", "1"), ("ctime", "10")]]),
          ("S2", Except.ok []),
          ("S3", Except.ok [[("orderId", "3"), ("ctime", "5")]])] := by
  refine ⟨by decide, by decide⟩

/-- C4 (amended): the local extractor tolerates per-symbol failure — the run
reports `success = true` and its data comes only from records fetched by
succeeding symbols — but a failing symbol is *swallowed*, not marked: its
outcome is indistinguishable from a successful fetch of zero records, and the
result carries no `failed_symbols` field or tagged error entry. -/
theorem C4_partial_failure_swallowed
    (jobs : List (String × Except String (List Rec))) (res : LocalResult)
    (h : extract_futures_orders_local jobs = some res) :
    res.success = true ∧
    extract_futures_orders_local jobs =
      extract_futures_orders_local (jobs.map errToEmpty) ∧
    ∀ r ∈ res.data, ∃ j ∈ jobs, ∃ orders, j.2 = Except.ok orders ∧
      r ∈ fetch_symbol_futures_orders j.1 j.2 := by
  have hfun : ((fun (j : String × Except String (List Rec)) =>
      fetch_symbol_futures_orders j.1 j.2) ∘ errToEmpty) =
      (fun j => fetch_symbol_futures_orders j.1 j.2) := by
    funext j
    rcases j with ⟨s, o⟩
    cases o <;> rfl
  have hm : mergeLocal (jobs.map errToEmpty) = mergeLocal jobs := by
    rw [mergeLocal, mergeLocal, List.map_map, hfun]
  have heq : extract_futures_orders_local jobs =
      extract_futures_orders_local (jobs.map errToEmpty) := by
    unfold extract_futures_orders_local
    rw [hm, List.length_map]
  refine ⟨?_, heq, ?_⟩
  · unfold extract_futures_orders_local at h
    split at h
    case h_1 data hsort =>
      obtain rfl := Option.some.inj h
      rfl
    case h_2 => simp at h
  · intro r hr
    unfold extract_futures_orders_local at h
    split at h
    case h_1 data hsort =>
      obtain rfl := Option.some.inj h
      rw [sortLocal?] at hsort
      obtain ⟨rfl, _⟩ := pySortByKey?_some _ _ _ hsort
      have h1 : r ∈ dedupLocal (mergeLocal jobs) :=
        (perm_pySortDesc _ _).mem_iff.mp hr
      rw [dedupLocal, pyDedup_eq_keepFirstBy] at h1
      have h2 : r ∈ mergeLocal jobs := mem_of_mem_keepFirstBy _ _ _ h1
      rw [mergeLocal] at h2
      obtain ⟨l, hl, hrl⟩ := List.mem_flatten.mp h2
      obtain ⟨j, hj, rfl⟩ := List.mem_map.mp hl
      cases hjo : j.2 with
      | error e =>
        rw [hjo] at hrl
        simp [fetch_symbol_futures_orders] at hrl
      | ok orders => exact ⟨j, hj, orders, hjo, hrl⟩
    case h_2 => simp at h

/-- C4 witness: the amended theorem at the three-symbol run with one failing
symbol. -/
theorem C4_partial_failure_swallowed_witness :
    (LocalResult.mk true
        [[("orderId", "1"), ("ctime", "10"), ("symbol", "S1")],
          [("orderId", "3"), ("ctime", "5"), ("symbol", "S3")]] 2 3).success = true ∧
    extract_futures_orders_local
        [("S1", Except.ok [[("orderId", "1"), ("ctime", "10")]]),
          ("S2", Except.error "boom"),
          ("S3", Except.ok [[("orderId", "3"), ("ctime", "5")]])] =
      extract_futures_orders_local
        ([("S1", Except.ok [[("orderId", "1"), ("ctime", "10")]]),
          ("S2", Except.error "boom"),
          ("S3", Except.ok [[("orderId", "3"), ("ctime", "5")]])].map errToEmpty) ∧
    ∀ r ∈ (LocalResult.mk true
        [[("orderId", "1"), ("ctime", "10"), ("symbol", "S1")],
          [("orderId", "3"), ("ctime", "5"), ("symbol", "S3")]] 2 3).data,
      ∃ j ∈ [("S1", Except.ok [[("orderId", "1"), ("ctime", "10")]]),
          ("S2", Except.error "boom"),
          ("S3", Except.ok [[("orderId", "3"), ("ctime", "5")]])],
        ∃ orders, j.2 = Except.ok orders ∧
          r ∈ fetch_symbol_futures_orders j.1 j.2 :=
  C4_partial_failure_swallowed
    [("S1", Except.ok [[("orderId", "1"), ("ctime", "10")]]),
      ("S2", Except.error "boom"),
      ("S3", Except.ok [[("orderId", "3"), ("ctime", "5")]])]
    ⟨true, [[("orderId", "1"), ("ctime", "10"), ("symbol", "S1")],
      [("orderId", "3"), ("ctime", "5"), ("symbol", "S3")]], 2, 3⟩
    (by decide)

/-!
### Single-step lemmas for the pagination loop
-/

/-- A non-success envelope breaks the loop, returning what was gathered. -/
theorem paginateGo_ret_err (u : Bool) (pp : Nat) (mp : Option Nat)
    (os : List FetchOutcome) (page : Nat) (acc : List Rec) (e : Envelope)
    (h : ¬ e.code = "00000") :
    paginateGo u pp mp (FetchOutcome.ret e :: os) page acc =
      some (acc, page + 1) := by
  simp only [paginateGo]
  rw [if_neg h]

/-- An empty page breaks the loop. -/
theorem paginateGo_ret_empty (u : Bool) (pp : Nat) (mp : Option Nat)
    (os : List FetchOutcome) (page : Nat) (acc : List Rec) (e : Envelope)
    (h : e.code = "00000") (hemp : pageItems u e.data = []) :
    paginateGo u pp mp (FetchOutcome.ret e :: os) page acc =
      some (acc, page + 1) := by
  simp only [paginateGo]
  rw [if_pos h, hemp]
  simp

/-- A successful page whose `nextFlag` is false or whose item count is below
`per_page` is appended and ends the loop. -/
theorem paginateGo_ret_last (u : Bool) (pp : Nat) (mp : Option Nat)
    (os : List FetchOutcome) (page : Nat) (acc : List Rec) (e : Envelope)
    (h : e.code = "00000") (hne : ¬ pageItems u e.data = [])
    (hstop : pageNextFlag e.data = false ∨ (pageItems u e.data).length < pp) :
    paginateGo u pp mp (FetchOutcome.ret e :: os) page acc =
      some (acc ++ pageItems u e.data, page + 1) := by
  simp only [paginateGo]
  rw [if_pos h, if_neg (by simpa [List.isEmpty_iff] using hne), if_pos ?_]
  rcases hstop with h1 | h1
  · simp [h1]
  · simp [h1]

/-- A successful full page with `nextFlag` true and a truthy last-item id is
appended and the loop continues (no page cap set). -/
theorem paginateGo_ret_next (u : Bool) (pp : Nat) (os : List FetchOutcome)
    (page : Nat) (acc : List Rec) (e : Envelope) (v : String)
    (h : e.code = "00000") (hne : ¬ pageItems u e.data = [])
    (hnf : pageNextFlag e.data = true)
    (hfull : ¬ (pageItems u e.data).length < pp)
    (hid : pageEndId u (pageItems u e.data) = some v) :
    paginateGo u pp none (FetchOutcome.ret e :: os) page acc =
      paginateGo u pp none os (page + 1) (acc ++ pageItems u e.data) := by
  simp only [paginateGo]
  rw [if_pos h, if_neg (by simpa [List.isEmpty_iff] using hne),
    if_neg (by simp [hnf, hfull]), hid]

/-- A thrown client call is retried: nothing is returned, the loop just moves
to the next scripted call. -/
theorem paginateGo_replicate_throws (u : Bool) (pp : Nat) (mp : Option Nat)
    (n : Nat) (page : Nat) (acc : List Rec) :
    paginateGo u pp mp (List.replicate n FetchOutcome.throws) page acc =
      none := by
  induction n generalizing page with
  | zero => rfl
  | succ k ih =>
    rw [List.replicate_succ]
    simp only [paginateGo]
    exact ih (page + 1)

/-- Any number of thrown calls followed by an error envelope: the loop returns
the gathered accumulator after all `n + 1` calls. -/
theorem paginateGo_throws_then_err (u : Bool) (pp : Nat) (mp : Option Nat)
    (n : Nat) (page : Nat) (acc : List Rec) :
    paginateGo u pp mp
        (List.replicate n FetchOutcome.throws ++
          [FetchOutcome.ret ⟨"error", "boom", PyData.dict [] [] false⟩])
        page acc =
      some (acc, page + n + 1) := by
  induction n generalizing page with
  | zero =>
    rw [List.replicate_zero, List.nil_append,
      paginateGo_ret_err _ _ _ _ _ _ _ (by decide)]
  | succ k ih =>
    rw [List.replicate_succ, List.cons_append]
    simp only [paginateGo]
    rw [ih (page + 1)]
    congr 2
    omega

/-- C5 counterexample.  A page fetch that throws twice in a row is fetched a
third time: after `[throws, throws, success-empty]` the paginator has made 3
client calls — it did not stop at one retry — and after `[throws, throws]`
alone it is still looping (no truncated result was returned). -/
theorem C5_counterexample :
    fetch_all_futures_history_for_symbol true 100 none
        [FetchOutcome.throws, FetchOutcome.throws,
          FetchOutcome.ret ⟨"00000", "ok", PyData.dict [] [] false⟩] =
      some ([], 3) ∧
    fetch_all_futures_history_for_symbol true 100 none
        [FetchOutcome.throws, FetchOutcome.throws] = none := by
  refine ⟨by decide, by decide⟩

/-- C5 (amended): a page fetch that throws is retried after the fixed backoff
*without any retry bound* — for every `n`, `n` consecutive throws leave the
loop still running, and never raise out of the paginator; what truncates a
symbol's pagination (returning the items gathered so far) is an *error
envelope* from the client, which is how the wrapped client surfaces transport
errors. -/
theorem C5_transport_retry_unbounded (n : Nat) (u : Bool) (pp : Nat)
    (mp : Option Nat) :
    fetch_all_futures_history_for_symbol u pp mp
        (List.replicate n FetchOutcome.throws) = none ∧
    fetch_all_futures_history_for_symbol u pp mp
        (List.replicate n FetchOutcome.throws ++
          [FetchOutcome.ret ⟨"error", "boom", PyData.dict [] [] false⟩]) =
      some ([], n + 1) := by
  constructor
  · exact paginateGo_replicate_throws u pp mp n 0 []
  · rw [fetch_all_futures_history_for_symbol,
      paginateGo_throws_then_err u pp mp n 0 []]
    congr 2
    omega

/-- C6 counterexample.  A mock whose page 1 holds `per_page` items with
`nextFlag = true` and whose page 2 has `nextFlag = false` — but whose items
carry no `tradeId`/`fillId` — stops after *one* fetch with only page 1's
items: the loop needs a truthy last-item id to continue, which the claim does
not require. -/
theorem C6_counterexample :
    fetch_all_futures_history_for_symbol true 1 none
        [FetchOutcome.ret ⟨"00000", "ok", PyData.dict [[("cTime", "1")]] [] true⟩,
          FetchOutcome.ret ⟨"00000", "ok", PyData.dict [[("cTime", "2")]] [] false⟩] =
      some ([[("cTime", "1")]], 1) := by
  decide

/-- C6 (amended): with page 1 a full success page (`per_page` items,
`nextFlag = true`) whose last item carries a truthy pagination id, and page 2
a success page satisfying the stop condition (`nextFlag = false` or fewer than
`per_page` items), the paginator performs exactly 2 client calls and returns
the concatenation of the two pages' items, whatever the script holds beyond
page 2; without the truthy id on page 1's last item it stops after one call. -/
theorem C6_two_page_pagination (u : Bool) (pp : Nat) (i1 i2 : List Rec)
    (m1 m2 : String) (nf2 : Bool) (rest : List FetchOutcome)
    (hlen : i1.length = pp) (hpp : 0 < pp)
    (hid : (pageEndId u i1).isSome = true)
    (hstop : nf2 = false ∨ i2.length < pp) :
    fetch_all_futures_history_for_symbol u pp none
        (FetchOutcome.ret ⟨"00000", m1, PyData.dict i1 i1 true⟩ ::
          FetchOutcome.ret ⟨"00000", m2, PyData.dict i2 i2 nf2⟩ :: rest) =
      some (i1 ++ i2, 2) := by
  have hitems1 : pageItems u (PyData.dict i1 i1 true) = i1 := by
    rw [pageItems]
    exact ite_self i1
  have hitems2 : pageItems u (PyData.dict i2 i2 nf2) = i2 := by
    rw [pageItems]
    exact ite_self i2
  have hne1 : i1 ≠ [] := by
    intro h0
    rw [h0] at hlen
    simp at hlen
    omega
  obtain ⟨v, hv⟩ := Option.isSome_iff_exists.mp hid
  rw [fetch_all_futures_history_for_symbol,
    paginateGo_ret_next u pp _ 0 []
      ⟨"00000", m1, PyData.dict i1 i1 true⟩ v rfl
      (by rw [hitems1]; exact hne1) rfl
      (by rw [hitems1, hlen]; omega) (by rw [hitems1]; exact hv),
    hitems1, List.nil_append]
  by_cases h2 : i2 = []
  · subst h2
    rw [paginateGo_ret_empty u pp none rest 1 i1
      ⟨"00000", m2, PyData.dict [] [] nf2⟩ rfl (by rw [hitems2]),
      List.append_nil]
  · rw [paginateGo_ret_last u pp none rest 1 i1
      ⟨"00000", m2, PyData.dict i2 i2 nf2⟩ rfl
      (by rw [hitems2]; exact h2) ?_, hitems2]
    rcases hstop with h1 | h1
    · exact Or.inl h1
    · rw [hitems2]
      exact Or.inr h1

/-- C6 witness: the amended pagination theorem at a concrete two-page mock. -/
theorem C6_two_page_pagination_witness :
    fetch_all_futures_history_for_symbol true 1 none
        [FetchOutcome.ret ⟨"00000", "ok",
            PyData.dict [[("tradeId", "a")]] [[("tradeId", "a")]] true⟩,
          FetchOutcome.ret ⟨"00000", "ok",
            PyData.dict [[("tradeId", "b")]] [[("tradeId", "b")]] false⟩] =
      some ([[("tradeId", "a")]] ++ [[("tradeId", "b")]], 2) :=
  C6_two_page_pagination true 1 [[("tradeId", "a")]] [[("tradeId", "b")]]
    "ok" "ok" false [] (by decide) (by decide) (by decide) (Or.inl rfl)

/-- Every record in an extraction result's data is one of the stamped fetched
records: dedup only drops records and sort only reorders them. -/
theorem mem_mergeLocal_of_extract (jobs : List (String × Except String (List Rec)))
    (res : LocalResult) (h : extract_futures_orders_local jobs = some res) :
    ∀ r ∈ res.data, r ∈ mergeLocal jobs := by
  intro r hr
  unfold extract_futures_orders_local at h
  split at h
  case h_1 data hsort =>
    obtain rfl := Option.some.inj h
    rw [sortLocal?] at hsort
    obtain ⟨rfl, _⟩ := pySortByKey?_some _ _ _ hsort
    have h1 := (perm_pySortDesc _ _).mem_iff.mp hr
    rw [dedupLocal, pyDedup_eq_keepFirstBy] at h1
    exact mem_of_mem_keepFirstBy _ _ _ h1
  case h_2 => simp at h

/-- C7 counterexample.  The worker stamps more than the `symbol` tag: a
fetched record gains `worker_id` and `data_type` fields it did not have. -/
theorem C7_counterexample :
    rget (stampWorker "BTCUSDT" "worker-001" true [("tradeId", "t")])
        "data_type" = some "fill" ∧
    rget [("tradeId", "t")] "data_type" = none ∧
    rget (stampWorker "BTCUSDT" "worker-001" true [("tradeId", "t")])
        "worker_id" = some "worker-001" ∧
    rget [("tradeId", "t")] "worker_id" = none := by
  refine ⟨by decide, by decide, by decide, by decide⟩

/-- C7 (amended): the FastAPI pipeline writes only the `symbol` key of each
fetched record and the merge/dedup/sort stages never alter a record (every
output record is one of the stamped fetched records); the worker pipeline,
however, writes `symbol`, `worker_id` *and* `data_type`, leaving every other
key unchanged. -/
theorem C7_symbol_stamp_frame (s w : String) (u : Bool) (r : Rec) (k : String)
    (jobs : List (String × Except String (List Rec))) (res : LocalResult)
    (h : extract_futures_orders_local jobs = some res) :
    (k ≠ "symbol" → rget (rset r "symbol" s) k = rget r k) ∧
    (k ≠ "symbol" → k ≠ "worker_id" → k ≠ "data_type" →
      rget (stampWorker s w u r) k = rget r k) ∧
    (∀ x ∈ res.data, x ∈ mergeLocal jobs) := by
  refine ⟨fun hk => rget_rset_ne r "symbol" s k hk, fun h1 h2 h3 => ?_,
    mem_mergeLocal_of_extract jobs res h⟩
  rw [stampWorker, rget_rset_ne _ _ _ _ h3, rget_rset_ne _ _ _ _ h2,
    rget_rset_ne _ _ _ _ h1]

/-- C7 witness: the frame property at a concrete record, key and run. -/
theorem C7_symbol_stamp_frame_witness :
    (("tradeId" : String) ≠ "symbol" →
      rget (rset [("tradeId", "t")] "symbol" "B") "tradeId" =
        rget [("tradeId", "t")] "tradeId") ∧
    (("tradeId" : String) ≠ "symbol" → ("tradeId" : String) ≠ "worker_id" →
      ("tradeId" : String) ≠ "data_type" →
      rget (stampWorker "B" "w1" true [("tradeId", "t")]) "tradeId" =
        rget [("tradeId", "t")] "tradeId") ∧
    (∀ x ∈ (LocalResult.mk true
        [[("orderId", "1"), ("ctime", "2"), ("symbol", "B")]] 1 1).data,
      x ∈ mergeLocal [("B", Except.ok [[("orderId", "1"), ("ctime", "2")]])]) :=
  C7_symbol_stamp_frame "B" "w1" true [("tradeId", "t")] "tradeId"
    [("B", Except.ok [[("orderId", "1"), ("ctime", "2")]])]
    ⟨true, [[("orderId", "1"), ("ctime", "2"), ("symbol", "B")]], 1, 1⟩
    (by decide)

/-- C8 counterexample.  `get_futures_symbols` does not return an envelope on
failure: a transport error yields the bare empty list, indistinguishable from
a successful listing with zero contracts — no synthetic error code reaches the
caller. -/
theorem C8_counterexample :
    get_futures_symbols (HttpResult.err "timeout") = [] ∧
    get_futures_symbols
        (HttpResult.ok 200 ⟨"00000", "ok", PyData.arr []⟩) = [] := by
  refine ⟨rfl, by decide⟩

/-- C8 (amended): on a transport error or an HTTP error status the two
page-fetch operations return an envelope with the synthetic code `"error"`
(never the exchange success code) instead of raising — but `get_futures_symbols`
swallows the same failures into a bare empty symbol list, carrying no
envelope and no error code. -/
theorem C8_error_envelope (h : HttpResult)
    (hf : (∃ m, h = HttpResult.err m) ∨
      (∃ st b, h = HttpResult.ok st b ∧ 400 ≤ st)) :
    (get_futures_history_orders h).code = "error" ∧
    (get_futures_history_orders h).code ≠ "00000" ∧
    (get_futures_fills h).code = "error" ∧
    (get_futures_fills h).code ≠ "00000" ∧
    get_futures_symbols h = [] := by
  have hcode : ("error" : String) ≠ "00000" := by decide
  rcases hf with ⟨m, rfl⟩ | ⟨st, b, rfl, hst⟩
  · exact ⟨rfl, fun hc => hcode hc, rfl, fun hc => hcode hc, rfl⟩
  · simp only [get_futures_history_orders, get_futures_fills,
      get_futures_symbols]
    rw [if_pos hst, if_pos hst, if_pos hst]
    exact ⟨rfl, fun hc => hcode hc, rfl, fun hc => hcode hc, rfl⟩

/-- C8 witness: the uniform-envelope theorem at a concrete transport error. -/
theorem C8_error_envelope_witness :
    (get_futures_history_orders (HttpResult.err "timeout")).code = "error" ∧
    (get_futures_history_orders (HttpResult.err "timeout")).code ≠ "00000" ∧
    (get_futures_fills (HttpResult.err "timeout")).code = "error" ∧
    (get_futures_fills (HttpResult.err "timeout")).code ≠ "00000" ∧
    get_futures_symbols (HttpResult.err "timeout") = [] :=
  C8_error_envelope (HttpResult.err "timeout") (Or.inl ⟨"timeout", rfl⟩)
